import Mathlib

/-!
Shallow embedding of the retrying HTTP transport from
`internal/pkg/http/transport` (file `main.go` of the repository) and of the
default retry classifier `shouldRetry` from `internal/pkg/http`.

Modelling conventions:
* Byte streams (`io.ReadCloser` values used here) are modelled as a list of
  remaining bytes plus the error, if any, that `Close` reports.  Reads on
  these buffer-like streams never fail (as for `bytes.Reader`), which is the
  shape of every body this program constructs.
* Machine integers (`attempts`, status codes) stay well below any overflow
  bound, so they are modelled as `Nat`.
* Pointer-shared mutable state (`*readTrackingBody` objects reachable from
  several shallow request copies, and the caller's `*http.Request`) lives in
  an explicit heap; requests and wrappers are addressed by index.
* A Go nil-pointer dereference (sending a `nil` request to the inner
  transport, or `drainBody` on a `nil` response) is modelled as the outcome
  `RTResult.panicked`.
* The Go loop counter `attempts` with exit test `t.maxAttempts < attempts`
  is represented by the pair `(a, rem)` with `rem = maxAttempts + 1 - a`;
  the exit test `maxAttempts < a` holds exactly when `rem = 0`, which makes
  the recursion structural.
-/

namespace HttpRetry

/-- A buffer-like byte stream: the bytes not yet read, and the error (if
any) that closing it reports.  `bytes.Reader`/`NopCloser` streams have
`closeErr = none`. -/
structure ByteStream where
  remaining : List Nat
  closeErr : Option String
deriving DecidableEq, Repr

/-- Reading at most `n` bytes from a buffer-like stream. -/
def ByteStream.read (s : ByteStream) (n : Nat) : List Nat × ByteStream :=
  (s.remaining.take n, { s with remaining := s.remaining.drop n })

/-- Closing the stream reports its close error (for `NopCloser` style
streams this is `none`). -/
def ByteStream.close (s : ByteStream) : Option String :=
  s.closeErr

/-- The `readTrackingBody` wrapper from the source: an `io.ReadCloser`
with two tracking flags.  The wrapped stream is inlined, since in this
program no two wrappers ever share an underlying stream. -/
structure readTrackingBody where
  stream : ByteStream
  didRead : Bool
  didClose : Bool
deriving DecidableEq, Repr

/-- `func (r *readTrackingBody) Read(data []byte) (int, error)`:
sets `didRead` and forwards to the wrapped stream. -/
def readTrackingBody.Read (r : readTrackingBody) (n : Nat) :
    List Nat × readTrackingBody :=
  let out := r.stream.read n
  (out.1, { r with didRead := true, stream := out.2 })

/-- `func (r *readTrackingBody) Close() error`:
sets `didClose` and forwards to the wrapped stream. -/
def readTrackingBody.Close (r : readTrackingBody) :
    Option String × readTrackingBody :=
  (r.stream.close, { r with didClose := true })

/-- `io.ReadAll(req.Body)` through the wrapper: repeated `Read` calls until
EOF.  Net effect on a buffer-like stream: `didRead` is set (Read is called
at least once) and all remaining bytes are returned. -/
def readTrackingBody.ReadAll (r : readTrackingBody) :
    List Nat × readTrackingBody :=
  (r.stream.remaining,
    { r with didRead := true, stream := { r.stream with remaining := [] } })

/-- The response-body behaviour an attempt's response exhibits, fixed by the
inner transport: HTTP status, whether `res.Body` is non-nil, the error (if
any) that draining it with `io.Copy` reports, and the error (if any) that
closing it reports. -/
structure RespSpec where
  status : Nat
  hasBody : Bool
  copyErr : Option String
  closeErr : Option String
deriving DecidableEq, Repr

/-- A response object handed around by the transport: the attempt number
that produced it (its identity) together with its specification. -/
structure Resp where
  attempt : Nat
  spec : RespSpec
deriving DecidableEq, Repr

/-- Default retry classifier `shouldRetry` from `internal/pkg/http`:
retry on any error, otherwise retry iff `StatusCode >= 500`.
`none` models the nil-pointer dereference that `res.StatusCode` performs
when both arguments are nil. -/
def shouldRetry (res : Option Resp) (err : Option String) : Option Bool :=
  match err with
  | some _ => some true
  | none =>
    match res with
    | some r => some (decide (500 ≤ r.spec.status))
    | none => none

/-- The body field of a caller-supplied `*http.Request`: `nil`, the
sentinel `http.NoBody`, or a buffer-like stream. -/
inductive CallerBody where
  | nilBody
  | noBody
  | buf (s : ByteStream)
deriving Repr

/-- A caller's `*http.Request` as used by the transport: inert identifying
fields, the body, the optional `GetBody` fresh-body factory (returning a
fresh stream or an error, the same on every call), and the request context
(`ctxDoneAt k` tells whether `ctx.Done()` has fired when the `select` after
attempt `k` runs; `ctxErr` is the value of `ctx.Err()` then). -/
structure Request where
  url : String
  methodName : String
  headers : List (String × String)
  body : CallerBody
  getBody : Option (Except String ByteStream)
  ctxDoneAt : Nat → Bool
  ctxErr : String

/-- Default request value, used only for out-of-range heap lookups. -/
def defaultRequest : Request :=
  { url := "", methodName := "", headers := [], body := .nilBody,
    getBody := none, ctxDoneAt := fun _ => false, ctxErr := "" }

/-- The body of a request held by the transport after `setupRewindBody`:
`nil`, `http.NoBody`, or a pointer to a `readTrackingBody` wrapper in the
heap. -/
inductive TBody where
  | nilB
  | noB
  | tracked (wid : Nat)
deriving DecidableEq, Repr

/-- A request value inside the transport: the copied caller fields plus the
(possibly wrapped) body.  `newReq := *req` in the source corresponds to
copying `orig` wholesale and replacing `body`. -/
structure InnerReq where
  orig : Request
  body : TBody

/-- The heap: caller request objects (reachable through the `*http.Request`
pointer handed to `RoundTrip`) and `readTrackingBody` wrapper objects,
both addressed by index. -/
structure Heap where
  requests : List Request
  wrappers : List readTrackingBody

/-- Default wrapper used only for out-of-range lookups. -/
def defaultWrapper : readTrackingBody :=
  { stream := { remaining := [], closeErr := none },
    didRead := false, didClose := false }

/-- Dereference a wrapper pointer. -/
def Heap.getW (h : Heap) (wid : Nat) : readTrackingBody :=
  h.wrappers.getD wid defaultWrapper

/-- Write through a wrapper pointer. -/
def Heap.setW (h : Heap) (wid : Nat) (w : readTrackingBody) : Heap :=
  { h with wrappers := h.wrappers.set wid w }

/-- Allocate a fresh wrapper (`&readTrackingBody{...}` in the source),
returning its address. -/
def Heap.allocW (h : Heap) (w : readTrackingBody) : Nat × Heap :=
  (h.wrappers.length, { h with wrappers := h.wrappers ++ [w] })

/-- `func setupRewindBody(req *http.Request) *http.Request`:
if the request has no body (or the sentinel), return it unchanged;
otherwise return a shallow copy whose body is a fresh tracking wrapper
around the original body. -/
def setupRewindBody (req : Request) (h : Heap) : InnerReq × Heap :=
  match req.body with
  | .nilBody => ({ orig := req, body := .nilB }, h)
  | .noBody => ({ orig := req, body := .noB }, h)
  | .buf s =>
    let out := h.allocW { stream := s, didRead := false, didClose := false }
    ({ orig := req, body := .tracked out.1 }, out.2)

/-- `func rewindBody(req *http.Request) (*http.Request, error)`:
no body, sentinel body, or an untouched wrapper is returned unchanged;
otherwise the wrapper is closed if not yet closed (a close failure aborts),
then a fresh body is obtained from `GetBody` when present (a factory
failure aborts) or by buffering the bytes still readable through the old
wrapper, and a shallow request copy carrying a fresh wrapper is returned. -/
def rewindBody (req : InnerReq) (h : Heap) :
    Except String InnerReq × Heap :=
  match req.body with
  | .nilB => (.ok req, h)
  | .noB => (.ok req, h)
  | .tracked wid =>
    let w := h.getW wid
    if !w.didRead && !w.didClose then (.ok req, h)
    else
      let closeStep : Option String × Heap :=
        if !w.didClose then
          let out := w.Close
          (out.1, h.setW wid out.2)
        else (none, h)
      match closeStep with
      | (some e, h1) => (.error e, h1)
      | (none, h1) =>
        match req.orig.getBody with
        | some (.error e) => (.error e, h1)
        | some (.ok s) =>
          let out := h1.allocW { stream := s, didRead := false, didClose := false }
          (.ok { orig := req.orig, body := .tracked out.1 }, out.2)
        | none =>
          let w1 := h1.getW wid
          let ra := w1.ReadAll
          let h2 := h1.setW wid ra.2
          let out := h2.allocW
            { stream := { remaining := ra.1, closeErr := none },
              didRead := false, didClose := false }
          (.ok { orig := req.orig, body := .tracked out.1 }, out.2)

/-- What one attempt's send carried as a request body: the attempt was made
with a nil request (the rewind-error path of the source), with no body, or
with the given bytes attached. -/
inductive SendPayload where
  | nilRequest
  | noBody
  | bytes (bs : List Nat)
deriving DecidableEq, Repr

/-- Observable events of one `RoundTrip` call, in order of occurrence. -/
inductive Event where
  | send (attempt : Nat) (payload : SendPayload)
  | drainedResp (attempt : Nat)
  | closedResp (attempt : Nat)
deriving DecidableEq, Repr

/-- The attempt number an event belongs to. -/
def Event.idx : Event → Nat
  | .send k _ => k
  | .drainedResp k => k
  | .closedResp k => k

/-- How the inner transport behaves on one attempt: whether it reads the
request body to EOF, whether it closes the request body, and the
`(response, error)` outcome it produces. -/
structure AttemptBehavior where
  readsAll : Bool
  closesReqBody : Bool
  resp : Option RespSpec
  err : Option String

/-- A `RetryableTransport` value: the attempt budget (`maxAttempts` in the
source), the retry classifier, the backoff schedule, and the inner
transport, the latter modelled as its per-attempt behaviour. -/
structure Config where
  maxAttempts : Nat
  checkRetry : Option Resp → Option String → Bool
  backoff : Nat → Int
  inner : Nat → AttemptBehavior

/-- One send through the inner transport: record the body carried and apply
the inner transport's reads/closes to the tracked wrapper. -/
def performSend (beh : AttemptBehavior) (body : TBody) (h : Heap) :
    SendPayload × Heap :=
  match body with
  | .nilB => (.noBody, h)
  | .noB => (.bytes [], h)
  | .tracked wid =>
    let w := h.getW wid
    let pay := SendPayload.bytes w.stream.remaining
    let w1 := if beh.readsAll then (w.ReadAll).2 else w
    let w2 := if beh.closesReqBody then (w1.Close).2 else w1
    (pay, h.setW wid w2)

/-- Outcome of a `RoundTrip` call: a `(response, error)` pair, or a runtime
panic (nil-pointer dereference). -/
inductive RTResult where
  | ok (res : Option Resp) (err : Option String)
  | panicked
deriving DecidableEq, Repr

/-- Result of `drainBody`: a panic (when called on a nil response), or
completion with the error returned and the drain events that occurred. -/
inductive DrainRes where
  | panicked
  | done (err : Option String) (evs : List Event)
deriving DecidableEq, Repr

/-- `func drainBody(res *http.Response) error`: on a nil response the field
access `res.Body` panics; otherwise, when the body is non-nil, copy it to
`io.Discard` (a copy failure returns that error without closing), then
close it (returning the close error, if any). -/
def drainBody (res : Option Resp) : DrainRes :=
  match res with
  | none => .panicked
  | some r =>
    if r.spec.hasBody then
      match r.spec.copyErr with
      | some e => .done (some e) []
      | none => .done r.spec.closeErr [.drainedResp r.attempt, .closedResp r.attempt]
    else .done none []

/-- Everything a `RoundTrip` call produces: its return value, the ordered
event trace, and the final heap. -/
structure RTOut where
  result : RTResult
  events : List Event
  heap : Heap

/-- The retry loop of `RoundTrip`, one recursive step per `for` iteration.
`a` is the value of `attempts` after the `attempts++` of this iteration and
`rem = maxAttempts + 1 - a`, so the source's exit test
`t.maxAttempts < attempts` is exactly `rem = 0`.  Step order mirrors the
source: rewind (a rewind error is discarded by the source, which then hands
the nil request to the inner transport — a nil-pointer panic), send,
classify, budget test, backoff, context test, drain, loop. -/
def roundTripLoop (cfg : Config) (creq : Request) (ireq : InnerReq)
    (a : Nat) (rem : Nat) (h : Heap) : RTOut :=
  match rewindBody ireq h with
  | (.error _, h1) =>
    { result := .panicked, events := [.send a .nilRequest], heap := h1 }
  | (.ok rw, h1) =>
    let beh := cfg.inner a
    let sendOut := performSend beh rw.body h1
    let h2 := sendOut.2
    let evSend := Event.send a sendOut.1
    let res : Option Resp := beh.resp.map (fun s => { attempt := a, spec := s })
    let err := beh.err
    if !(cfg.checkRetry res err) then
      { result := .ok res err, events := [evSend], heap := h2 }
    else
      match rem with
      | 0 => { result := .ok res err, events := [evSend], heap := h2 }
      | rem' + 1 =>
        let _wait := cfg.backoff a
        if creq.ctxDoneAt a then
          { result := .ok none (some creq.ctxErr), events := [evSend], heap := h2 }
        else
          match drainBody res with
          | .panicked => { result := .panicked, events := [evSend], heap := h2 }
          | .done (some e) devs =>
            { result := .ok none (some e), events := evSend :: devs, heap := h2 }
          | .done none devs =>
            let out := roundTripLoop cfg creq ireq (a + 1) rem' h2
            { result := out.result, events := evSend :: devs ++ out.events,
              heap := out.heap }

/-- `func (t *RetryableTransport) RoundTrip(req *http.Request)`: look up the
caller's request object, wrap its body, and run the retry loop starting at
attempt 1 with `rem = maxAttempts`. -/
def RoundTrip (cfg : Config) (rid : Nat) (h : Heap) : RTOut :=
  let req := h.requests.getD rid defaultRequest
  let setup := setupRewindBody req h
  roundTripLoop cfg req setup.1 1 cfg.maxAttempts setup.2

/-- Number of inner-transport invocations recorded in an event trace. -/
def sendCount (evs : List Event) : Nat :=
  evs.countP (fun e => match e with | .send _ _ => true | _ => false)

/-- The `(response, error)` outcome attempt `a` produces under `cfg`. -/
def attemptResp (cfg : Config) (a : Nat) : Option Resp :=
  (cfg.inner a).resp.map (fun s => { attempt := a, spec := s })

/-- Projection used to state the drain discipline for attempt `k`: it keeps
(in trace order) the full drain of attempt `k`'s response body as `0`, the
close of that body as `1`, and the send of attempt `k + 1` as `2`, and
drops every other event. -/
def c4tag (k : Nat) : Event → Option Nat
  | .drainedResp i => if i = k then some 0 else none
  | .closedResp i => if i = k then some 1 else none
  | .send i _ => if i = k + 1 then some 2 else none

/-! Concrete instances used in counterexamples and witnesses. -/

/-- A three-byte buffer body (the shape of `bytes.NewReader(bodyJson)`). -/
def stdStream : ByteStream := { remaining := [1, 2, 3], closeErr := none }

/-- A response with a drainable body and the given status. -/
def stdResp (st : Nat) : RespSpec :=
  { status := st, hasBody := true, copyErr := none, closeErr := none }

/-- An inner-transport attempt that fully reads the request body and
produces a response with the given status. -/
def stdBeh (st : Nat) : AttemptBehavior :=
  { readsAll := true, closesReqBody := false, resp := some (stdResp st), err := none }

/-- The default classifier's total behaviour, used as a concrete
`checkRetry` strategy in witnesses: retry on error or on status ≥ 500. -/
def witCheck : Option Resp → Option String → Bool := fun r e =>
  match e with
  | some _ => true
  | none =>
    match r with
    | some x => decide (500 ≤ x.spec.status)
    | none => true

/-- A request with a replayable byte-buffer body and a working `GetBody`
factory, as `http.NewRequest` builds for a `*bytes.Reader`. -/
def stdReq : Request :=
  { url := "https://example.test/"
    methodName := "POST"
    headers := [("Content-Type", "application/json")]
    body := .buf stdStream
    getBody := some (.ok stdStream)
    ctxDoneAt := fun _ => false
    ctxErr := "context canceled" }

/-- Request whose `GetBody` factory fails (`C1` failing input). -/
def c1req : Request := { stdReq with getBody := some (.error "boom") }

/-- `N = 1`, default-classifier-like strategy, first attempt 500 then 200. -/
def c1cfg : Config :=
  { maxAttempts := 1
    checkRetry := witCheck
    backoff := fun _ => 0
    inner := fun a => if a = 1 then stdBeh 500 else stdBeh 200 }

/-- Initial heap holding only the `C1` request. -/
def c1heap : Heap := { requests := [c1req], wrappers := [] }

/-- The transport-side request after `setupRewindBody` on the `C1` input. -/
def c1ireq : InnerReq := { orig := c1req, body := .tracked 0 }

/-- The heap state reached after attempt 1 of the `C1` run: the wrapper has
been fully read by the inner transport and not yet closed. -/
def c1heapAfter : Heap :=
  { requests := [c1req]
    wrappers := [{ stream := { remaining := [], closeErr := none }
                   didRead := true
                   didClose := false }] }

/-- Request with a buffer body but no `GetBody` factory (`C6`
counterexample input). -/
def c6req : Request := { stdReq with getBody := none }

/-- Initial heap holding only the `C6` request. -/
def c6heap : Heap := { requests := [c6req], wrappers := [] }

/-- An empty wrapped stream that has never been read or closed. -/
def c7wrap : readTrackingBody :=
  { stream := { remaining := [], closeErr := none }
    didRead := false
    didClose := false }

/-- An attempt whose 500 response's body fails while being drained. -/
def drainFailBeh : AttemptBehavior :=
  { readsAll := true
    closesReqBody := false
    resp := some { status := 500, hasBody := true, copyErr := some "read reset", closeErr := none }
    err := none }

/-- A transport whose every attempt produces `drainFailBeh`, budget 2. -/
def c4cfg : Config :=
  { maxAttempts := 2
    checkRetry := witCheck
    backoff := fun _ => 0
    inner := fun _ => drainFailBeh }

/-- An attempt whose 500 response drains fully but whose body then fails
on `Close`. -/
def closeFailBeh : AttemptBehavior :=
  { readsAll := true
    closesReqBody := false
    resp := some { status := 500, hasBody := true, copyErr := none, closeErr := some "close failed" }
    err := none }

/-- A transport whose every attempt produces `closeFailBeh`, budget 2. -/
def c4closeCfg : Config :=
  { maxAttempts := 2
    checkRetry := witCheck
    backoff := fun _ => 0
    inner := fun _ => closeFailBeh }

/-- Heap holding only the standard request. -/
def stdHeap : Heap := { requests := [stdReq], wrappers := [] }

/-- A transport with a zero additional-attempt budget. -/
def n0cfg : Config :=
  { maxAttempts := 0
    checkRetry := witCheck
    backoff := fun _ => 0
    inner := fun _ => stdBeh 500 }

/-- A transport whose inner always answers 500, budget 3. -/
def r500cfg : Config :=
  { maxAttempts := 3
    checkRetry := witCheck
    backoff := fun _ => 0
    inner := fun _ => stdBeh 500 }

/-- A transport whose inner always answers 200, budget 5. -/
def r200cfg : Config :=
  { maxAttempts := 5
    checkRetry := witCheck
    backoff := fun _ => 0
    inner := fun _ => stdBeh 200 }

/-- Request whose context is done when the wait after attempt 1 runs. -/
def ctxReq : Request := { stdReq with ctxDoneAt := fun k => decide (k = 1) }

/-- Heap holding only `ctxReq`. -/
def ctxHeap : Heap := { requests := [ctxReq], wrappers := [] }

/-- A transport-side request with no body. -/
def nilIreq : InnerReq := { orig := stdReq, body := .nilB }

/-! Heap lemmas. -/

theorem Heap.getW_alloc_self (h : Heap) (w : readTrackingBody) :
    ((h.allocW w).2).getW (h.allocW w).1 = w := by
  simp [Heap.allocW, Heap.getW, List.getD]

theorem Heap.getW_alloc_lt (h : Heap) (w : readTrackingBody) (wid : Nat)
    (hlt : wid < h.wrappers.length) :
    ((h.allocW w).2).getW wid = h.getW wid := by
  simp [Heap.allocW, Heap.getW, List.getD, List.getElem?_append, hlt]

theorem Heap.getW_set_self (h : Heap) (w : readTrackingBody) (wid : Nat)
    (hlt : wid < h.wrappers.length) :
    ((h.setW wid w).getW wid) = w := by
  simp [Heap.setW, Heap.getW, List.getD, List.getElem?_set, hlt]

theorem Heap.getW_set_ne (h : Heap) (w : readTrackingBody) (wid wid' : Nat)
    (hne : wid' ≠ wid) :
    ((h.setW wid' w).getW wid) = h.getW wid := by
  simp [Heap.setW, Heap.getW, List.getD, List.getElem?_set, hne]

theorem Heap.setW_length (h : Heap) (w : readTrackingBody) (wid : Nat) :
    ((h.setW wid w).wrappers).length = h.wrappers.length := by
  simp [Heap.setW]

theorem Heap.allocW_length (h : Heap) (w : readTrackingBody) :
    (((h.allocW w).2).wrappers).length = h.wrappers.length + 1 := by
  simp [Heap.allocW]

/-- **C7, counterexample.**  The claim says `didRead` becomes true exactly
when some byte has been read.  On an already-exhausted stream a `Read`
call returns zero bytes, yet the wrapper sets `didRead` before forwarding,
so the flag is true although no byte was ever read. -/
theorem c7_counterexample :
    (c7wrap.Read 1).1 = [] ∧ c7wrap.didRead = false ∧
      ((c7wrap.Read 1).2).didRead = true := by
  decide

/-- **C7, amended.**  For the body wrapper `readTrackingBody`: `didRead`
becomes true exactly when a `Read` call has been made (even one returning
zero bytes) and `didClose` becomes true exactly when a `Close` call has
been made; both flags are sticky (`Read` preserves `didClose`, `Close`
preserves `didRead`, and no operation resets a flag); and every `Read` and
`Close` forwards to the wrapped stream unchanged, without eager
buffering. -/
theorem c7_flags_sticky_and_forwarding :
    (∀ (r : readTrackingBody) (n : Nat),
      (r.Read n).1 = (r.stream.read n).1 ∧
      ((r.Read n).2).stream = (r.stream.read n).2 ∧
      ((r.Read n).2).didRead = true ∧
      ((r.Read n).2).didClose = r.didClose) ∧
    (∀ r : readTrackingBody,
      (r.Close).1 = r.stream.close ∧
      ((r.Close).2).stream = r.stream ∧
      ((r.Close).2).didClose = true ∧
      ((r.Close).2).didRead = r.didRead) :=
  ⟨fun _ _ => ⟨rfl, rfl, rfl, rfl⟩, fun _ => ⟨rfl, rfl, rfl, rfl⟩⟩

/-- **C9.**  The default retry classifier retries whenever the error is
non-empty; otherwise it retries exactly when the response status is at
least 500, and any response below 500 (hence every 4xx) is terminal. -/
theorem c9_default_classifier :
    (∀ (res : Option Resp) (e : String), shouldRetry res (some e) = some true) ∧
    (∀ r : Resp, shouldRetry (some r) none = some (decide (500 ≤ r.spec.status))) ∧
    (∀ r : Resp, r.spec.status < 500 → shouldRetry (some r) none = some false) := by
  refine ⟨fun _ _ => rfl, fun _ => rfl, fun r hlt => ?_⟩
  simp only [shouldRetry, Option.some.injEq]
  simpa [decide_eq_false_iff_not] using Nat.not_le.mpr hlt

/-- Witness for the 4xx conjunct of `c9_default_classifier` at a concrete
404 response. -/
theorem c9_witness :
    shouldRetry (some { attempt := 1, spec := stdResp 404 }) none = some false :=
  c9_default_classifier.2.2 { attempt := 1, spec := stdResp 404 } (by decide)

/-- **C1 (code bug).**  On the `C1` input the rewind step before attempt 2
returns the error `"boom"`, but `RoundTrip` neither aborts with that error
nor returns it: the source discards the error returned by `rewindBody`
(the next `res, err := ...` assignment overwrites it unchecked) and passes
the nil rewound request to the inner transport, which dereferences it —
a runtime panic instead of the specified `(nil, rewindError)` return. -/
theorem c1_rewind_error_swallowed :
    (rewindBody c1ireq c1heapAfter).1 = .error "boom" ∧
    (RoundTrip c1cfg 0 c1heap).result = .panicked ∧
    (RoundTrip c1cfg 0 c1heap).events =
      [.send 1 (.bytes [1, 2, 3]), .drainedResp 1, .closedResp 1,
       .send 2 .nilRequest] ∧
    (RoundTrip c1cfg 0 c1heap).result ≠ .ok none (some "boom") :=
  ⟨rfl, by decide, by decide, by decide⟩

/-- **C6, counterexample.**  A replayable three-byte buffer body without a
fresh-body factory: the inner transport fully reads the body on attempt 1,
and the rewind for attempt 2 buffers what is still readable — nothing — so
attempt 2 carries an empty body, not a byte-identical one. -/
theorem c6_counterexample :
    (RoundTrip { maxAttempts := 1
                 checkRetry := witCheck
                 backoff := fun _ => 0
                 inner := fun a => if a = 1 then stdBeh 500 else stdBeh 200 }
        0 c6heap).events =
      [.send 1 (.bytes [1, 2, 3]), .drainedResp 1, .closedResp 1,
       .send 2 (.bytes [])] ∧
    SendPayload.bytes [] ≠ SendPayload.bytes [1, 2, 3] := by
  decide

/-! Structural lemmas about the loop's event trace. -/

theorem sendCount_cons_send (a : Nat) (p : SendPayload) (l : List Event) :
    sendCount (Event.send a p :: l) = sendCount l + 1 := by
  simp [sendCount, List.countP_cons]

theorem drainBody_done_shape (res : Option Resp) (err : Option String)
    (devs : List Event) (hd : drainBody res = .done err devs) :
    devs = [] ∨
      ∃ r, res = some r ∧
        devs = [.drainedResp r.attempt, .closedResp r.attempt] := by
  cases res with
  | none => simp [drainBody] at hd
  | some r =>
    simp only [drainBody] at hd
    by_cases hb : r.spec.hasBody
    · simp only [hb, if_true] at hd
      cases hce : r.spec.copyErr with
      | some e => rw [hce] at hd; simp at hd; left; exact hd.2
      | none => rw [hce] at hd; simp at hd; right; exact ⟨r, rfl, hd.2.symm⟩
    · simp only [hb, if_false] at hd
      simp at hd
      left; exact hd.2

theorem loop_sendCount_le (cfg : Config) (creq : Request) (ireq : InnerReq) :
    ∀ (rem a : Nat) (h : Heap),
      sendCount (roundTripLoop cfg creq ireq a rem h).events ≤ rem + 1 := by
  intro rem
  induction rem with
  | zero =>
    intro a h
    rcases hrw : rewindBody ireq h with ⟨e | rw, h1⟩
    · rw [roundTripLoop, hrw]; simp [sendCount]
    · rw [roundTripLoop, hrw]
      cases hc : cfg.checkRetry ((cfg.inner a).resp.map fun s => { attempt := a, spec := s }) (cfg.inner a).err <;>
        simp [hc, sendCount]
  | succ rem' ih =>
    intro a h
    rcases hrw : rewindBody ireq h with ⟨e | rw, h1⟩
    · rw [roundTripLoop, hrw]; simp [sendCount]
    · rw [roundTripLoop, hrw]
      cases hc : cfg.checkRetry ((cfg.inner a).resp.map fun s => { attempt := a, spec := s }) (cfg.inner a).err
      · simp [hc, sendCount]
      · simp only [hc]
        cases hdn : creq.ctxDoneAt a
        · rcases hd : drainBody ((cfg.inner a).resp.map fun s => { attempt := a, spec := s }) with _ | ⟨derr, devs⟩
          · simp [hd, sendCount]
          · cases derr with
            | some e2 =>
              simp only [hd]
              rcases drainBody_done_shape _ _ _ hd with hsh | ⟨r, hres, hsh⟩ <;>
                subst hsh <;> simp [sendCount, List.countP_cons]
            | none =>
              have hih := ih (a + 1) (performSend (cfg.inner a) rw.body h1).2
              simp only [sendCount] at hih
              rcases drainBody_done_shape _ _ _ hd with hsh | ⟨r, hres, hsh⟩ <;>
                subst hsh <;>
                simp [hd, sendCount, List.countP_cons, List.countP_append] <;>
                omega
        · simp [sendCount]

/-- Rewinding directly after `setupRewindBody` is the identity: the fresh
wrapper has both flags unset (and a missing or sentinel body is returned
unchanged). -/
theorem rewindBody_setup (req : Request) (h : Heap) :
    rewindBody (setupRewindBody req h).1 (setupRewindBody req h).2 =
      (.ok (setupRewindBody req h).1, (setupRewindBody req h).2) := by
  cases hb : req.body <;>
    simp [setupRewindBody, rewindBody, hb, Heap.getW_alloc_self]

/-- **C2.**  Over every strategy, inner transport, and request: a single
`RoundTrip` call performs at most `maxAttempts + 1` sends; and with
`maxAttempts = 0` it performs exactly one send and returns that attempt's
`(response, error)` outcome whatever the classifier answers. -/
theorem c2_attempt_budget (cfg : Config) (rid : Nat) (h : Heap) :
    sendCount (RoundTrip cfg rid h).events ≤ cfg.maxAttempts + 1 ∧
    (cfg.maxAttempts = 0 →
      sendCount (RoundTrip cfg rid h).events = 1 ∧
      (RoundTrip cfg rid h).result = .ok (attemptResp cfg 1) (cfg.inner 1).err) := by
  constructor
  · exact loop_sendCount_le cfg _ _ cfg.maxAttempts 1 _
  · intro h0
    simp only [RoundTrip, h0]
    rw [roundTripLoop, rewindBody_setup]
    cases hc : cfg.checkRetry ((cfg.inner 1).resp.map fun s => { attempt := 1, spec := s }) (cfg.inner 1).err <;>
      simp [hc, sendCount, attemptResp]

/-- Witness for `c2_attempt_budget` with a zero budget and a retryable 500
response: one send, outcome returned. -/
theorem c2_witness :
    sendCount (RoundTrip n0cfg 0 stdHeap).events = 1 ∧
    (RoundTrip n0cfg 0 stdHeap).result =
      .ok (attemptResp n0cfg 1) ((n0cfg.inner 1).err) :=
  (c2_attempt_budget n0cfg 0 stdHeap).2 rfl

/-- **C3.**  In any loop iteration whose rewind step succeeds, the
classifier is consulted before the budget test: a "do not retry" verdict
makes the loop return that attempt's exact `(response, error)` whatever
budget remains, and when the budget is exhausted (`rem = 0`, i.e.
`maxAttempts < attempts`) the attempt's exact `(response, error)` is
likewise returned unchanged. -/
theorem c3_classifier_before_budget (cfg : Config) (creq : Request)
    (ireq rw : InnerReq) (a rem : Nat) (h h1 : Heap)
    (hrw : rewindBody ireq h = (.ok rw, h1)) :
    (cfg.checkRetry (attemptResp cfg a) (cfg.inner a).err = false →
      (roundTripLoop cfg creq ireq a rem h).result =
        .ok (attemptResp cfg a) (cfg.inner a).err) ∧
    (rem = 0 →
      (roundTripLoop cfg creq ireq a rem h).result =
        .ok (attemptResp cfg a) (cfg.inner a).err) := by
  constructor
  · intro hc
    rw [roundTripLoop, hrw]
    simp only [attemptResp] at hc ⊢
    simp [hc]
  · intro h0
    subst h0
    rw [roundTripLoop, hrw]
    cases hc : cfg.checkRetry ((cfg.inner a).resp.map fun s => { attempt := a, spec := s }) (cfg.inner a).err <;>
      simp [attemptResp, hc]

/-- Witness for `c3_classifier_before_budget`: a 200 answer short-circuits
with five attempts still in budget, and an exhausted budget surfaces the
last 500 verbatim. -/
theorem c3_witness :
    (roundTripLoop r200cfg stdReq nilIreq 1 5 stdHeap).result =
      .ok (attemptResp r200cfg 1) ((r200cfg.inner 1).err) ∧
    (roundTripLoop r500cfg stdReq nilIreq 4 0 stdHeap).result =
      .ok (attemptResp r500cfg 4) ((r500cfg.inner 4).err) :=
  ⟨(c3_classifier_before_budget r200cfg stdReq nilIreq nilIreq 1 5 stdHeap stdHeap rfl).1 rfl,
   (c3_classifier_before_budget r500cfg stdReq nilIreq nilIreq 4 0 stdHeap stdHeap rfl).2 rfl⟩

/-- The loop iteration in which the context is done at the backoff wait:
the call returns `(nil, ctx.Err())` and the iteration contributes only its
own send event. -/
theorem loop_ctxDone_eq (cfg : Config) (creq : Request) (ireq rw : InnerReq)
    (a rem' : Nat) (h h1 : Heap)
    (hrw : rewindBody ireq h = (.ok rw, h1))
    (hretry : cfg.checkRetry (attemptResp cfg a) (cfg.inner a).err = true)
    (hdone : creq.ctxDoneAt a = true) :
    roundTripLoop cfg creq ireq a (rem' + 1) h =
      { result := .ok none (some creq.ctxErr)
        events := [Event.send a (performSend (cfg.inner a) rw.body h1).1]
        heap := (performSend (cfg.inner a) rw.body h1).2 } := by
  rw [roundTripLoop, hrw]
  simp only [attemptResp] at hretry
  simp [hretry, hdone]

/-- **C5.**  If the classifier asked for a retry, budget remains, and the
request's context is done when the backoff wait runs, the loop returns
`(nil, ctx.Err())` and performs no further send: the trace of that
iteration is its own send event only. -/
theorem c5_cancellation_during_backoff (cfg : Config) (creq : Request)
    (ireq rw : InnerReq) (a rem' : Nat) (h h1 : Heap)
    (hrw : rewindBody ireq h = (.ok rw, h1))
    (hretry : cfg.checkRetry (attemptResp cfg a) (cfg.inner a).err = true)
    (hdone : creq.ctxDoneAt a = true) :
    (roundTripLoop cfg creq ireq a (rem' + 1) h).result =
      .ok none (some creq.ctxErr) ∧
    (roundTripLoop cfg creq ireq a (rem' + 1) h).events =
      [Event.send a (performSend (cfg.inner a) rw.body h1).1] := by
  rw [loop_ctxDone_eq cfg creq ireq rw a rem' h h1 hrw hretry hdone]
  exact ⟨rfl, rfl⟩

/-- Witness for `c5_cancellation_during_backoff`: context done during the
first backoff of an always-500 run. -/
theorem c5_witness :
    (roundTripLoop r500cfg ctxReq nilIreq 1 3 ctxHeap).result =
      .ok none (some ctxReq.ctxErr) ∧
    (roundTripLoop r500cfg ctxReq nilIreq 1 3 ctxHeap).events =
      [Event.send 1 (performSend (r500cfg.inner 1) nilIreq.body ctxHeap).1] :=
  c5_cancellation_during_backoff r500cfg ctxReq nilIreq nilIreq 1 2 ctxHeap ctxHeap
    rfl rfl rfl

/-- **C10.**  On the cancellation-during-backoff path the loop returns
before `drainBody` runs: the just-completed attempt's response body is
neither drained nor closed by the transport on that path. -/
theorem c10_cancellation_skips_drain (cfg : Config) (creq : Request)
    (ireq rw : InnerReq) (a rem' : Nat) (h h1 : Heap)
    (hrw : rewindBody ireq h = (.ok rw, h1))
    (hretry : cfg.checkRetry (attemptResp cfg a) (cfg.inner a).err = true)
    (hdone : creq.ctxDoneAt a = true) :
    Event.drainedResp a ∉ (roundTripLoop cfg creq ireq a (rem' + 1) h).events ∧
    Event.closedResp a ∉ (roundTripLoop cfg creq ireq a (rem' + 1) h).events := by
  rw [loop_ctxDone_eq cfg creq ireq rw a rem' h h1 hrw hretry hdone]
  simp

/-- Witness for `c10_cancellation_skips_drain` on the `c5_witness` run. -/
theorem c10_witness :
    Event.drainedResp 1 ∉ (roundTripLoop r500cfg ctxReq nilIreq 1 3 ctxHeap).events ∧
    Event.closedResp 1 ∉ (roundTripLoop r500cfg ctxReq nilIreq 1 3 ctxHeap).events :=
  c10_cancellation_skips_drain r500cfg ctxReq nilIreq nilIreq 1 2 ctxHeap ctxHeap
    rfl rfl rfl

/-! Frame lemmas: no operation of the transport writes a caller request. -/

theorem Heap.setW_requests (h : Heap) (wid : Nat) (w : readTrackingBody) :
    (h.setW wid w).requests = h.requests := rfl

theorem Heap.allocW_requests (h : Heap) (w : readTrackingBody) :
    ((h.allocW w).2).requests = h.requests := rfl

theorem setupRewindBody_requests (req : Request) (h : Heap) :
    ((setupRewindBody req h).2).requests = h.requests := by
  cases hb : req.body <;> simp [setupRewindBody, hb, Heap.allocW]

theorem rewindBody_requests (ireq : InnerReq) (h : Heap) :
    ((rewindBody ireq h).2).requests = h.requests := by
  cases hb : ireq.body with
  | nilB => simp [rewindBody, hb]
  | noB => simp [rewindBody, hb]
  | tracked wid =>
    simp only [rewindBody, hb]
    split
    · rfl
    · split <;> rename_i heq
      · split at heq
        · injection heq with heq1 heq2
          subst heq2; rfl
        · injection heq with heq1 heq2
          exact Option.noConfusion heq1
      · split at heq
        · injection heq with heq1 heq2
          subst heq2
          split <;> simp [Heap.allocW, Heap.setW]
        · injection heq with heq1 heq2
          subst heq2
          split <;> simp [Heap.allocW, Heap.setW]

theorem performSend_requests (beh : AttemptBehavior) (b : TBody) (h : Heap) :
    ((performSend beh b h).2).requests = h.requests := by
  cases b <;> simp [performSend, Heap.setW]

theorem loop_requests (cfg : Config) (creq : Request) (ireq : InnerReq) :
    ∀ (rem a : Nat) (h : Heap),
      ((roundTripLoop cfg creq ireq a rem h).heap).requests = h.requests := by
  intro rem
  induction rem with
  | zero =>
    intro a h
    rcases hrw : rewindBody ireq h with ⟨e | rw, h1⟩
    · rw [roundTripLoop, hrw]
      have := rewindBody_requests ireq h
      rw [hrw] at this
      exact this
    · rw [roundTripLoop, hrw]
      have hreq : h1.requests = h.requests := by
        have := rewindBody_requests ireq h; rw [hrw] at this; exact this
      cases hc : cfg.checkRetry ((cfg.inner a).resp.map fun s => { attempt := a, spec := s }) (cfg.inner a).err <;>
        simp [hc, performSend_requests, hreq]
  | succ rem' ih =>
    intro a h
    rcases hrw : rewindBody ireq h with ⟨e | rw, h1⟩
    · rw [roundTripLoop, hrw]
      have := rewindBody_requests ireq h
      rw [hrw] at this
      exact this
    · rw [roundTripLoop, hrw]
      have hreq : h1.requests = h.requests := by
        have := rewindBody_requests ireq h; rw [hrw] at this; exact this
      have hps : ((performSend (cfg.inner a) rw.body h1).2).requests = h.requests := by
        rw [performSend_requests]; exact hreq
      cases hc : cfg.checkRetry ((cfg.inner a).resp.map fun s => { attempt := a, spec := s }) (cfg.inner a).err
      · simp [hc, hps]
      · simp only [hc]
        cases hdn : creq.ctxDoneAt a
        · rcases hd : drainBody ((cfg.inner a).resp.map fun s => { attempt := a, spec := s }) with _ | ⟨derr, devs⟩
          · simp [hd, hps]
          · cases derr with
            | some e2 => simp [hd, hps]
            | none =>
              have hih := ih (a + 1) (performSend (cfg.inner a) rw.body h1).2
              simp [hd, hih, hps]
        · simp [hps]

theorem loop_events_cases (cfg : Config) (creq : Request) (ireq : InnerReq)
    (rworig : Request) (rwbody : TBody) (a rem : Nat) (h h1 : Heap)
    (hrw : rewindBody ireq h = (.ok { orig := rworig, body := rwbody }, h1)) :
    ∃ tail,
      (roundTripLoop cfg creq ireq a rem h).events =
        Event.send a (performSend (cfg.inner a) rwbody h1).1 :: tail ∧
      (∀ k pay, Event.send k pay ∈ tail →
        ∃ rem', rem = rem' + 1 ∧
          Event.send k pay ∈
            (roundTripLoop cfg creq ireq (a + 1) rem'
              (performSend (cfg.inner a) rwbody h1).2).events) := by
  rw [roundTripLoop, hrw]
  cases hc : cfg.checkRetry ((cfg.inner a).resp.map fun s => { attempt := a, spec := s }) (cfg.inner a).err
  · exact ⟨[], by simp [hc], by simp⟩
  · cases rem with
    | zero => exact ⟨[], by simp [hc], by simp⟩
    | succ rem' =>
      cases hdn : creq.ctxDoneAt a
      · rcases hd : drainBody ((cfg.inner a).resp.map fun s => { attempt := a, spec := s }) with _ | ⟨derr, devs⟩
        · exact ⟨[], by simp [hc, hdn, hd], by simp⟩
        · have hshape := drainBody_done_shape _ _ _ hd
          cases derr with
          | some e2 =>
            refine ⟨devs, by simp [hc, hdn, hd], ?_⟩
            intro k pay hmem
            rcases hshape with h0 | ⟨r, hres, h2⟩
            · subst h0; simp at hmem
            · subst h2; simp at hmem
          | none =>
            refine ⟨devs ++ (roundTripLoop cfg creq ireq (a + 1) rem'
              (performSend (cfg.inner a) rwbody h1).2).events, by simp [hc, hdn, hd], ?_⟩
            intro k pay hmem
            refine ⟨rem', rfl, ?_⟩
            rcases List.mem_append.mp hmem with hdev | hrest
            · rcases hshape with h0 | ⟨r, hres, h2⟩
              · subst h0; simp at hdev
              · subst h2; simp at hdev
            · exact hrest
      · exact ⟨[], by simp [hc, hdn], by simp⟩

theorem performSend_tracked_pay (beh : AttemptBehavior) (wid : Nat) (h : Heap) :
    (performSend beh (.tracked wid) h).1 =
      .bytes ((h.getW wid).stream).remaining := by
  simp [performSend]

theorem performSend_tracked_length (beh : AttemptBehavior) (wid : Nat) (h : Heap) :
    (((performSend beh (.tracked wid) h).2).wrappers).length =
      h.wrappers.length := by
  simp [performSend, Heap.setW]

theorem performSend_tracked_getW_ne (beh : AttemptBehavior) (wid wid' : Nat)
    (h : Heap) (hne : wid ≠ wid') :
    (((performSend beh (.tracked wid) h).2).getW wid') = h.getW wid' := by
  simp only [performSend]
  exact Heap.getW_set_ne _ _ _ _ hne

theorem performSend_tracked_closeErr (beh : AttemptBehavior) (wid : Nat)
    (h : Heap) (hlt : wid < h.wrappers.length) :
    ((((performSend beh (.tracked wid) h).2).getW wid).stream).closeErr =
      ((h.getW wid).stream).closeErr := by
  simp only [performSend]
  rw [Heap.getW_set_self _ _ _ hlt]
  cases beh.readsAll <;> cases beh.closesReqBody <;>
    simp [readTrackingBody.ReadAll, readTrackingBody.Close]

theorem performSend_tracked_untouched (beh : AttemptBehavior) (wid : Nat)
    (h : Heap) (hlt : wid < h.wrappers.length)
    (hdr : (((performSend beh (.tracked wid) h).2).getW wid).didRead = false)
    (hdc : (((performSend beh (.tracked wid) h).2).getW wid).didClose = false) :
    ((performSend beh (.tracked wid) h).2).getW wid = h.getW wid := by
  simp only [performSend] at hdr hdc ⊢
  rw [Heap.getW_set_self _ _ _ hlt] at hdr hdc ⊢
  cases hra : beh.readsAll <;> cases hcb : beh.closesReqBody <;>
    rw [hra, hcb] at hdr hdc <;>
    simp_all [readTrackingBody.ReadAll, readTrackingBody.Close]

theorem rewindBody_untouched (orig : Request) (wid : Nat) (h : Heap)
    (hdr : (h.getW wid).didRead = false) (hdc : (h.getW wid).didClose = false) :
    rewindBody { orig := orig, body := .tracked wid } h =
      (.ok { orig := orig, body := .tracked wid }, h) := by
  simp [rewindBody, hdr, hdc]

theorem rewindBody_touched_closed (orig : Request) (gs : ByteStream)
    (wid : Nat) (h : Heap)
    (hgb : orig.getBody = some (.ok gs))
    (hdc : (h.getW wid).didClose = true) :
    rewindBody { orig := orig, body := .tracked wid } h =
      (.ok { orig := orig
             body := .tracked (h.allocW { stream := gs, didRead := false, didClose := false }).1 },
        (h.allocW { stream := gs, didRead := false, didClose := false }).2) := by
  simp [rewindBody, hdc, hgb]

theorem rewindBody_touched_open (orig : Request) (gs : ByteStream)
    (wid : Nat) (h : Heap)
    (hgb : orig.getBody = some (.ok gs))
    (hdr : (h.getW wid).didRead = true)
    (hdc : (h.getW wid).didClose = false)
    (hce : ((h.getW wid).stream).closeErr = none) :
    rewindBody { orig := orig, body := .tracked wid } h =
      (.ok { orig := orig
             body := .tracked (((h.setW wid ((h.getW wid).Close).2)).allocW
               { stream := gs, didRead := false, didClose := false }).1 },
        (((h.setW wid ((h.getW wid).Close).2)).allocW
          { stream := gs, didRead := false, didClose := false }).2) := by
  simp [rewindBody, hdr, hdc, hgb, readTrackingBody.Close, ByteStream.close, hce]

theorem loop_getBody_payload (cfg : Config) (creq orig : Request)
    (gs : ByteStream) (bs : List Nat) (wid : Nat)
    (hgb : orig.getBody = some (.ok gs)) (hgs : gs.remaining = bs) :
    ∀ (rem a : Nat) (h : Heap),
      wid < h.wrappers.length →
      ((h.getW wid).stream).closeErr = none →
      ((h.getW wid).didRead = false → (h.getW wid).didClose = false →
        ((h.getW wid).stream).remaining = bs) →
      ∀ k pay, Event.send k pay ∈
          (roundTripLoop cfg creq { orig := orig, body := .tracked wid } a rem h).events →
        pay = .bytes bs := by
  intro rem
  induction rem using Nat.strong_induction_on with
  | _ rem ih =>
    intro a h hlt hce hinv k pay hmem
    cases hdc : (h.getW wid).didClose with
    | false =>
      cases hdr : (h.getW wid).didRead with
      | false =>
        have hrw := rewindBody_untouched orig wid h hdr hdc
        obtain ⟨tail, hevs, htail⟩ :=
          loop_events_cases cfg creq _ orig (.tracked wid) a rem h h hrw
        rw [hevs] at hmem
        rcases List.mem_cons.mp hmem with heq | hmem'
        · injection heq with hk hp
          rw [hp, performSend_tracked_pay, hinv hdr hdc]
        · obtain ⟨rem', hrem, hmem2⟩ := htail k pay hmem'
          refine ih rem' (by omega) (a + 1) _ ?_ ?_ ?_ k pay hmem2
          · rw [performSend_tracked_length]
            exact hlt
          · rw [performSend_tracked_closeErr _ _ _ hlt]
            exact hce
          · intro hdr2 hdc2
            have hu := performSend_tracked_untouched _ _ _ hlt hdr2 hdc2
            rw [hu]
            exact hinv hdr hdc
      | true =>
        have hrw := rewindBody_touched_open orig gs wid h hgb hdr hdc hce
        obtain ⟨tail, hevs, htail⟩ :=
          loop_events_cases cfg creq _ orig
            (.tracked (((h.setW wid ((h.getW wid).Close).2)).allocW
              { stream := gs, didRead := false, didClose := false }).1)
            a rem h _ hrw
        rw [hevs] at hmem
        have hwid' : ((h.setW wid ((h.getW wid).Close).2).allocW
            { stream := gs, didRead := false, didClose := false }).1 =
              h.wrappers.length := by
          simp [Heap.allocW, Heap.setW]
        rcases List.mem_cons.mp hmem with heq | hmem'
        · injection heq with hk hp
          rw [hp, performSend_tracked_pay, Heap.getW_alloc_self, hgs]
        · obtain ⟨rem', hrem, hmem2⟩ := htail k pay hmem'
          have hne : ((h.setW wid ((h.getW wid).Close).2).allocW
              { stream := gs, didRead := false, didClose := false }).1 ≠ wid := by
            rw [hwid']
            omega
          have hgetW : ((performSend (cfg.inner a)
              (TBody.tracked (((h.setW wid ((h.getW wid).Close).2)).allocW
                { stream := gs, didRead := false, didClose := false }).1)
              (((h.setW wid ((h.getW wid).Close).2)).allocW
                { stream := gs, didRead := false, didClose := false }).2).2).getW wid =
                ((h.getW wid).Close).2 := by
            rw [performSend_tracked_getW_ne _ _ _ _ hne]
            rw [Heap.getW_alloc_lt]
            · exact Heap.getW_set_self _ _ _ hlt
            · simpa [Heap.setW] using hlt
          refine ih rem' (by omega) (a + 1) _ ?_ ?_ ?_ k pay hmem2
          · rw [performSend_tracked_length]
            simpa [Heap.allocW, Heap.setW] using Nat.lt_succ_of_lt hlt
          · rw [hgetW]
            simpa [readTrackingBody.Close] using hce
          · intro hdr2 hdc2
            rw [hgetW] at hdc2
            simp [readTrackingBody.Close] at hdc2
    | true =>
      have hrw := rewindBody_touched_closed orig gs wid h hgb hdc
      obtain ⟨tail, hevs, htail⟩ :=
        loop_events_cases cfg creq _ orig
          (.tracked (h.allocW { stream := gs, didRead := false, didClose := false }).1)
          a rem h _ hrw
      rw [hevs] at hmem
      have hwid' : (h.allocW { stream := gs, didRead := false, didClose := false }).1 =
          h.wrappers.length := rfl
      rcases List.mem_cons.mp hmem with heq | hmem'
      · injection heq with hk hp
        rw [hp, performSend_tracked_pay, Heap.getW_alloc_self, hgs]
      · obtain ⟨rem', hrem, hmem2⟩ := htail k pay hmem'
        have hne : (h.allocW { stream := gs, didRead := false, didClose := false }).1 ≠ wid := by
          rw [hwid']
          omega
        have hgetW : ((performSend (cfg.inner a)
            (TBody.tracked (h.allocW { stream := gs, didRead := false, didClose := false }).1)
            (h.allocW { stream := gs, didRead := false, didClose := false }).2).2).getW wid =
              h.getW wid := by
          rw [performSend_tracked_getW_ne _ _ _ _ hne]
          exact Heap.getW_alloc_lt _ _ _ hlt
        refine ih rem' (by omega) (a + 1) _ ?_ ?_ ?_ k pay hmem2
        · rw [performSend_tracked_length]
          simpa [Heap.allocW] using Nat.lt_succ_of_lt hlt
        · rw [hgetW]
          exact hce
        · intro hdr2 hdc2
          rw [hgetW, hdc] at hdc2
          exact absurd hdc2 (by simp)

/-- **C8.**  A `RoundTrip` call never writes the caller's request object:
the initial body wrapping and every per-attempt rewind build shallow
copies, so every request object in the heap — in particular the one the
caller passed in — is unchanged, field for field, when the call returns,
for every strategy, request, and number of attempts. -/
theorem c8_caller_request_unmutated (cfg : Config) (rid : Nat) (h : Heap) :
    ((RoundTrip cfg rid h).heap).requests = h.requests := by
  simp only [RoundTrip]
  rw [loop_requests]
  exact setupRewindBody_requests _ h

/-- **C6, amended.**  When the request carries a buffer body together with
a fresh-body factory yielding those same bytes (exactly what
`http.NewRequest` installs for `*bytes.Reader` bodies), every attempt of a
`RoundTrip` call — first and retries alike — carries that byte-identical
body, for every strategy and inner-transport behaviour.  (The claim's
"with or without a fresh-body factory" clause fails: without a factory the
rewind replays only the still-unread suffix, see the counterexample.) -/
theorem c6_bodies_identical_with_factory (cfg : Config) (rid : Nat) (h : Heap)
    (bs : List Nat) (gs : ByteStream)
    (hbody : (h.requests.getD rid defaultRequest).body =
      .buf { remaining := bs, closeErr := none })
    (hgb : (h.requests.getD rid defaultRequest).getBody = some (.ok gs))
    (hgs : gs.remaining = bs) :
    ∀ k pay, Event.send k pay ∈ (RoundTrip cfg rid h).events →
      pay = .bytes bs := by
  intro k pay hmem
  have hsetup : setupRewindBody (h.requests.getD rid defaultRequest) h =
      ({ orig := h.requests.getD rid defaultRequest
         body := .tracked (h.allocW
           { stream := { remaining := bs, closeErr := none }
             didRead := false
             didClose := false }).1 },
        (h.allocW
          { stream := { remaining := bs, closeErr := none }
            didRead := false
            didClose := false }).2) := by
    rw [setupRewindBody, hbody]
  simp only [RoundTrip, hsetup] at hmem
  refine loop_getBody_payload cfg (h.requests.getD rid defaultRequest)
    (h.requests.getD rid defaultRequest) gs bs _ hgb hgs cfg.maxAttempts 1 _
    ?_ ?_ ?_ k pay hmem
  · simp [Heap.allocW]
  · rw [Heap.getW_alloc_self]
  · intro hdr2 hdc2
    rw [Heap.getW_alloc_self]

/-- Witness for `c6_bodies_identical_with_factory`. -/
theorem c6_witness :
    Event.send 2 (.bytes [1, 2, 3]) ∈ (RoundTrip r500cfg 0 stdHeap).events ∧
    SendPayload.bytes [1, 2, 3] = SendPayload.bytes [1, 2, 3] :=
  ⟨by decide,
   c6_bodies_identical_with_factory r500cfg 0 stdHeap [1, 2, 3] stdStream
     rfl rfl rfl 2 (.bytes [1, 2, 3]) (by decide)⟩

theorem drainBody_attempt_devs (cfg : Config) (a : Nat) (err : Option String)
    (devs : List Event)
    (hd : drainBody ((cfg.inner a).resp.map fun s => { attempt := a, spec := s }) =
      .done err devs) :
    ∀ e ∈ devs, e = .drainedResp a ∨ e = .closedResp a := by
  intro e he
  rcases drainBody_done_shape _ _ _ hd with h0 | ⟨r, hres, h2⟩
  · subst h0; simp at he
  · subst h2
    rcases Option.map_eq_some'.mp hres with ⟨s, hs, hr⟩
    rcases List.mem_cons.mp he with he1 | he2
    · left; rw [he1, ← hr]
    · right
      rcases List.mem_cons.mp he2 with he3 | he4
      · rw [he3, ← hr]
      · simp at he4

theorem loop_events_mem_idx (cfg : Config) (creq : Request) (ireq : InnerReq) :
    ∀ (rem a : Nat) (h : Heap),
      ∀ e ∈ (roundTripLoop cfg creq ireq a rem h).events, a ≤ e.idx := by
  intro rem
  induction rem with
  | zero =>
    intro a h e he
    rcases hrw : rewindBody ireq h with ⟨exc | rw, h1⟩
    · rw [roundTripLoop, hrw] at he
      simp at he
      simp [he, Event.idx]
    · rw [roundTripLoop, hrw] at he
      cases hc : cfg.checkRetry ((cfg.inner a).resp.map fun s => { attempt := a, spec := s }) (cfg.inner a).err <;>
        simp [hc] at he <;> simp [he, Event.idx]
  | succ rem' ih =>
    intro a h e he
    rcases hrw : rewindBody ireq h with ⟨exc | rw, h1⟩
    · rw [roundTripLoop, hrw] at he
      simp at he
      simp [he, Event.idx]
    · rw [roundTripLoop, hrw] at he
      cases hc : cfg.checkRetry ((cfg.inner a).resp.map fun s => { attempt := a, spec := s }) (cfg.inner a).err
      · simp [hc] at he
        simp [he, Event.idx]
      · simp only [hc] at he
        cases hdn : creq.ctxDoneAt a
        · rw [hdn] at he
          rcases hd : drainBody ((cfg.inner a).resp.map fun s => { attempt := a, spec := s }) with _ | ⟨derr, devs⟩
          · rw [hd] at he
            simp at he
            simp [he, Event.idx]
          · cases derr with
            | some e2 =>
              rw [hd] at he
              simp at he
              rcases he with he1 | he2
              · simp [he1, Event.idx]
              · rcases drainBody_attempt_devs cfg a _ _ hd e he2 with h3 | h3 <;>
                  simp [h3, Event.idx]
            | none =>
              rw [hd] at he
              simp [List.mem_cons, List.mem_append] at he
              rcases he with he1 | he2 | he3
              · simp [he1, Event.idx]
              · rcases drainBody_attempt_devs cfg a _ _ hd e he2 with h3 | h3 <;>
                  simp [h3, Event.idx]
              · exact Nat.le_of_succ_le (ih (a + 1) _ e he3)
        · rw [hdn] at he
          simp at he
          simp [he, Event.idx]



theorem loop_frame_shape (cfg : Config) (creq : Request) (ireq : InnerReq)
    (a rem : Nat) (h : Heap) :
    ∃ pay tail,
      (roundTripLoop cfg creq ireq a rem h).events = Event.send a pay :: tail ∧
      ∀ e ∈ tail, e = .drainedResp a ∨ e = .closedResp a ∨ a + 1 ≤ e.idx := by
  rcases hrw : rewindBody ireq h with ⟨exc | rw, h1⟩
  · rw [roundTripLoop, hrw]
    exact ⟨.nilRequest, [], rfl, by simp⟩
  · rw [roundTripLoop, hrw]
    cases hc : cfg.checkRetry ((cfg.inner a).resp.map fun s => { attempt := a, spec := s }) (cfg.inner a).err
    · exact ⟨(performSend (cfg.inner a) rw.body h1).1, [], by simp [hc], by simp⟩
    · cases rem with
      | zero => exact ⟨(performSend (cfg.inner a) rw.body h1).1, [], by simp [hc], by simp⟩
      | succ rem' =>
        cases hdn : creq.ctxDoneAt a
        · rcases hd : drainBody ((cfg.inner a).resp.map fun s => { attempt := a, spec := s }) with _ | ⟨derr, devs⟩
          · exact ⟨(performSend (cfg.inner a) rw.body h1).1, [], by simp [hc, hd], by simp⟩
          · cases derr with
            | some e2 =>
              refine ⟨(performSend (cfg.inner a) rw.body h1).1, devs, by simp [hc, hd], ?_⟩
              intro e he
              rcases drainBody_attempt_devs cfg a _ _ hd e he with h3 | h3
              · exact Or.inl h3
              · exact Or.inr (Or.inl h3)
            | none =>
              refine ⟨(performSend (cfg.inner a) rw.body h1).1,
                devs ++ (roundTripLoop cfg creq ireq (a + 1) rem'
                  (performSend (cfg.inner a) rw.body h1).2).events,
                by simp [hc, hd], ?_⟩
              intro e he
              rcases List.mem_append.mp he with he1 | he2
              · rcases drainBody_attempt_devs cfg a _ _ hd e he1 with h3 | h3
                · exact Or.inl h3
                · exact Or.inr (Or.inl h3)
              · exact Or.inr (Or.inr (loop_events_mem_idx cfg creq ireq rem' (a + 1) _ e he2))
        · exact ⟨(performSend (cfg.inner a) rw.body h1).1, [], by simp [hc], by simp⟩

theorem loop_next_attempt_tags (cfg : Config) (creq : Request) (ireq : InnerReq)
    (a rem : Nat) (h : Heap) (k : Nat) (hk : k + 1 = a) :
    ((roundTripLoop cfg creq ireq a rem h).events).filterMap (c4tag k) = [2] := by
  obtain ⟨pay, tail, hevs, htail⟩ := loop_frame_shape cfg creq ireq a rem h
  rw [hevs]
  have hhead : c4tag k (Event.send a pay) = some 2 := by
    simp [c4tag, hk]
  rw [List.filterMap_cons_some hhead]
  have htl : tail.filterMap (c4tag k) = [] := by
    rw [List.filterMap_eq_nil_iff]
    intro e he
    rcases htail e he with h3 | h3 | h3
    · subst h3; simp [c4tag]; omega
    · subst h3; simp [c4tag]; omega
    · cases e with
      | send i p => simp [Event.idx] at h3; simp [c4tag]; omega
      | drainedResp i => simp [Event.idx] at h3; simp [c4tag]; omega
      | closedResp i => simp [Event.idx] at h3; simp [c4tag]; omega
  rw [htl]




theorem loop_drain_tags (cfg : Config) (creq : Request) (ireq : InnerReq) :
    ∀ (rem a : Nat) (h : Heap) (k : Nat) (s : RespSpec),
      a ≤ k →
      (∃ pay, Event.send (k + 1) pay ∈ (roundTripLoop cfg creq ireq a rem h).events) →
      (cfg.inner k).resp = some s → s.hasBody = true →
      ((roundTripLoop cfg creq ireq a rem h).events).filterMap (c4tag k) = [0, 1, 2] := by
  intro rem
  induction rem using Nat.strong_induction_on with
  | _ rem ih =>
    intro a h k s hak hmem hresp hbody
    obtain ⟨pay, hpm⟩ := hmem
    rcases hrw : rewindBody ireq h with ⟨exc | rw, h1⟩
    · have hevs : (roundTripLoop cfg creq ireq a rem h).events =
          [Event.send a .nilRequest] := by
        rw [roundTripLoop, hrw]
      rw [hevs] at hpm
      simp at hpm
      exact absurd hpm.1 (by omega)
    · cases hc : cfg.checkRetry ((cfg.inner a).resp.map fun s => { attempt := a, spec := s }) (cfg.inner a).err
      · have hevs : (roundTripLoop cfg creq ireq a rem h).events =
            [Event.send a (performSend (cfg.inner a) rw.body h1).1] := by
          rw [roundTripLoop, hrw]
          simp [hc]
        rw [hevs] at hpm
        simp at hpm
        exact absurd hpm.1 (by omega)
      · cases rem with
        | zero =>
          have hevs : (roundTripLoop cfg creq ireq a 0 h).events =
              [Event.send a (performSend (cfg.inner a) rw.body h1).1] := by
            rw [roundTripLoop, hrw]
            simp [hc]
          rw [hevs] at hpm
          simp at hpm
          exact absurd hpm.1 (by omega)
        | succ rem' =>
          cases hdn : creq.ctxDoneAt a
          · rcases hd : drainBody ((cfg.inner a).resp.map fun s => { attempt := a, spec := s }) with _ | ⟨derr, devs⟩
            · have hevs : (roundTripLoop cfg creq ireq a (rem' + 1) h).events =
                  [Event.send a (performSend (cfg.inner a) rw.body h1).1] := by
                rw [roundTripLoop, hrw]
                simp [hc, hdn, hd]
              rw [hevs] at hpm
              simp at hpm
              exact absurd hpm.1 (by omega)
            · cases derr with
              | some e2 =>
                have hevs : (roundTripLoop cfg creq ireq a (rem' + 1) h).events =
                    Event.send a (performSend (cfg.inner a) rw.body h1).1 :: devs := by
                  rw [roundTripLoop, hrw]
                  simp [hc, hdn, hd]
                rw [hevs] at hpm
                simp at hpm
                rcases hpm with hpm1 | hpm2
                · exact absurd hpm1.1 (by omega)
                · rcases drainBody_attempt_devs cfg a _ _ hd _ hpm2 with h3 | h3 <;>
                    exact Event.noConfusion h3
              | none =>
                have hevs : (roundTripLoop cfg creq ireq a (rem' + 1) h).events =
                    Event.send a (performSend (cfg.inner a) rw.body h1).1 ::
                      devs ++ (roundTripLoop cfg creq ireq (a + 1) rem'
                        (performSend (cfg.inner a) rw.body h1).2).events := by
                  rw [roundTripLoop, hrw]
                  simp [hc, hdn, hd]
                rw [hevs] at hpm ⊢
                have hne : ¬ (a = k + 1) := by omega
                have hhead : c4tag k (Event.send a (performSend (cfg.inner a) rw.body h1).1) = none := by
                  simp [c4tag, hne]
                by_cases hka : k = a
                · subst hka
                  rw [hresp] at hd
                  simp only [Option.map_some', drainBody, hbody, if_true] at hd
                  cases hcp : s.copyErr with
                  | some e3 =>
                    rw [hcp] at hd
                    injection hd with hd1 hd2
                    exact Option.noConfusion hd1
                  | none =>
                    rw [hcp] at hd
                    injection hd with hd1 hd2
                    subst hd2
                    simp only [List.cons_append, List.nil_append]
                    have h0 : c4tag k (Event.drainedResp k) = some 0 := by simp [c4tag]
                    have h1x : c4tag k (Event.closedResp k) = some 1 := by simp [c4tag]
                    rw [List.filterMap_cons_none hhead, List.filterMap_cons_some h0,
                      List.filterMap_cons_some h1x,
                      loop_next_attempt_tags cfg creq ireq (k + 1) rem' _ k rfl]
                · have hlt : a < k := Nat.lt_of_le_of_ne hak (fun hx => hka hx.symm)
                  simp at hpm
                  rcases hpm with hpm1 | hpm2
                  · exact absurd hpm1.1 (by omega)
                  · rcases hpm2 with hdev | hrec
                    · rcases drainBody_attempt_devs cfg a _ _ hd _ hdev with h3 | h3 <;>
                        exact Event.noConfusion h3
                    · simp only [List.filterMap_cons_none hhead, List.filterMap_append]
                      have hdevs : List.filterMap (c4tag k) devs = [] := by
                        rw [List.filterMap_eq_nil_iff]
                        intro e he
                        have hnk : ¬ (a = k) := fun hx => hka hx.symm
                        rcases drainBody_attempt_devs cfg a _ _ hd e he with h3 | h3 <;>
                          subst h3 <;> simp [c4tag, hnk]
                      rw [hdevs,
                        ih rem' (by omega) (a + 1) _ k s (by omega) ⟨pay, hrec⟩ hresp hbody,
                        List.nil_append]
          · have hevs : (roundTripLoop cfg creq ireq a (rem' + 1) h).events =
                [Event.send a (performSend (cfg.inner a) rw.body h1).1] := by
              rw [roundTripLoop, hrw]
              simp [hc, hdn]
            rw [hevs] at hpm
            simp at hpm
            exact absurd hpm.1 (by omega)



/-- **C4.**  Drain discipline.  (a) For every attempt `k ≥ 1` that is
followed by a retry (a send of attempt `k + 1` appears in the trace) and
whose response has a body, the whole trace, projected to the events that
concern that hand-off, is exactly: full drain of response `k`, then close
of response `k` (hence exactly one close), then the send of attempt
`k + 1` — fully read, closed exactly once, all before the next send
begins.  (b) If draining the completed attempt's response fails with
error `e` — whether the `io.Copy` fails or the copy succeeds and
`res.Body.Close()` fails — in an iteration that had decided to retry with
budget left and a live context, the loop returns `(nil, e)` and performs
no further send. -/
theorem c4_drain_discipline (cfg : Config) (rid : Nat) (h : Heap) :
    (∀ (k : Nat) (s : RespSpec), 1 ≤ k →
      (∃ pay, Event.send (k + 1) pay ∈ (RoundTrip cfg rid h).events) →
      (cfg.inner k).resp = some s → s.hasBody = true →
      ((RoundTrip cfg rid h).events).filterMap (c4tag k) = [0, 1, 2]) ∧
    (∀ (creq : Request) (ireq : InnerReq) (rworig : Request) (rwbody : TBody)
        (a rem' : Nat) (h0 h1 : Heap) (e : String) (devs : List Event),
      rewindBody ireq h0 = (.ok { orig := rworig, body := rwbody }, h1) →
      drainBody (attemptResp cfg a) = .done (some e) devs →
      cfg.checkRetry (attemptResp cfg a) (cfg.inner a).err = true →
      creq.ctxDoneAt a = false →
      (roundTripLoop cfg creq ireq a (rem' + 1) h0).result = .ok none (some e) ∧
      sendCount (roundTripLoop cfg creq ireq a (rem' + 1) h0).events = 1) := by
  constructor
  · intro k s hk hmem hresp hbody
    simp only [RoundTrip] at hmem ⊢
    exact loop_drain_tags cfg _ _ cfg.maxAttempts 1 _ k s hk hmem hresp hbody
  · intro creq ireq rworig rwbody a rem' h0 h1 e devs hrw hd hc hdn
    simp only [attemptResp] at hc hd
    rw [roundTripLoop, hrw]
    rcases drainBody_done_shape _ _ _ hd with hde | ⟨r, hres, hde⟩ <;>
      subst hde <;>
      simp [hc, hdn, hd, sendCount, List.countP_cons]

/-- Witness for `c4_drain_discipline`, exercising the success-path drain
ordering, a copy failure, and a close failure. -/
theorem c4_witness :
    ((RoundTrip r500cfg 0 stdHeap).events).filterMap (c4tag 1) = [0, 1, 2] ∧
    ((roundTripLoop c4cfg stdReq nilIreq 1 2 stdHeap).result = .ok none (some "read reset") ∧
      sendCount (roundTripLoop c4cfg stdReq nilIreq 1 2 stdHeap).events = 1) ∧
    ((roundTripLoop c4closeCfg stdReq nilIreq 1 2 stdHeap).result = .ok none (some "close failed") ∧
      sendCount (roundTripLoop c4closeCfg stdReq nilIreq 1 2 stdHeap).events = 1) :=
  ⟨(c4_drain_discipline r500cfg 0 stdHeap).1 1 (stdResp 500) (by decide)
      ⟨.bytes [1, 2, 3], by decide⟩ rfl rfl,
   (c4_drain_discipline c4cfg 0 stdHeap).2 stdReq nilIreq stdReq .nilB 1 1 stdHeap stdHeap
      "read reset" [] rfl rfl rfl rfl,
   (c4_drain_discipline c4closeCfg 0 stdHeap).2 stdReq nilIreq stdReq .nilB 1 1 stdHeap stdHeap
      "close failed" [.drainedResp 1, .closedResp 1] rfl rfl rfl rfl⟩

end HttpRetry
